import Mathlib

/-
  Shallow embedding of the CHIP-8 interpreter from src/src/processor.rs
  (struct Chip8 and its methods).  Machine integers are modelled as Nat;
  a Rust panic (array index out of bounds, or debug-mode arithmetic
  overflow/underflow) is modelled by the step function returning none.
  Random input (opcode Cxkk) is supplied as an explicit oracle argument.
-/

/-- Pointwise update of a one-argument function, modelling writing one
slot of a Rust array. -/
def updF (f : Nat → Nat) (k v : Nat) : Nat → Nat :=
  fun j => if j = k then v else f j

/-- Pointwise update of a two-argument function, modelling writing one
cell of the 64x32 gfx array. -/
def updG (g : Nat → Nat → Nat) (a b v : Nat) : Nat → Nat → Nat :=
  fun c d => if c = a ∧ d = b then v else g c d

/-- Machine state: mirrors struct Chip8 in src/src/processor.rs field by
field.  Arrays become total functions (reads/writes outside the Rust
bounds are guarded in the operations that perform them). -/
structure Chip8 where
  opcode      : Nat
  memory      : Nat → Nat
  v           : Nat → Nat
  i           : Nat
  pc          : Nat
  gfx         : Nat → Nat → Nat
  delay_timer : Nat
  sound_timer : Nat
  stack       : Nat → Nat
  sp          : Nat
  key         : Nat → Nat
  draw_flag   : Bool

/-- Chip8::initialize of src/src/processor.rs: the zeroed power-on state
with pc = 0x200. -/
def initChip8 : Chip8 where
  opcode := 0
  memory := fun _ => 0
  v := fun _ => 0
  i := 0
  pc := 0x200
  gfx := fun _ _ => 0
  delay_timer := 0
  sound_timer := 0
  stack := fun _ => 0
  sp := 0
  key := fun _ => 0
  draw_flag := false

/-- Chip8::get_opcode: big-endian fetch of two bytes at pc. -/
def get_opcode (s : Chip8) : Nat :=
  (s.memory s.pc) <<< 8 ||| s.memory (s.pc + 1)

/-- u8::wrapping_sub for byte-sized operands. -/
def wrapping_sub8 (a b : Nat) : Nat :=
  if b ≤ a then a - b else a + 256 - b

/-- Bit number (7 - t) of sprite byte mb, as in
(memory[i + byte] >> (7 - bit)) & 1. -/
def colorbit (mb t : Nat) : Nat :=
  (mb >>> (7 - t)) &&& 1

/-- Inner loop of opcode Dxyn (for bit in 0..8), iterated k times:
processes bits 0..k-1 in order on the pair (v, gfx).  Reads v fresh each
iteration exactly as the Rust loop does. -/
def drwBitLoop (mb x dy : Nat) (st : (Nat → Nat) × (Nat → Nat → Nat)) :
    Nat → (Nat → Nat) × (Nat → Nat → Nat)
  | 0 => st
  | k + 1 =>
    let p := drwBitLoop mb x dy st k
    let dx := (p.1 x + k) % 64
    let c := colorbit mb k
    (updF p.1 15 (p.1 15 ||| (c &&& p.2 dx dy)),
     updG p.2 dx dy (Nat.xor (p.2 dx dy) c))

/-- Outer loop of opcode Dxyn (for byte in 0..n), iterated k times:
processes sprite rows 0..k-1 in order. -/
def drwRowLoop (mem : Nat → Nat) (i x y : Nat)
    (st : (Nat → Nat) × (Nat → Nat → Nat)) :
    Nat → (Nat → Nat) × (Nat → Nat → Nat)
  | 0 => st
  | k + 1 =>
    let p := drwRowLoop mem i x y st k
    drwBitLoop (mem (i + k)) x ((p.1 y + k) % 32) p 8

/-- State produced by the Dxyn body (after the sprite-byte reads have
been checked to be in bounds): v[0xF] is zeroed first, then the two
nested loops run, then draw_flag is set and pc advances by 2. -/
def dxynExec (w : Nat) (s : Chip8) : Chip8 :=
  let x := (w &&& 0x0F00) >>> 8
  let y := (w &&& 0x00F0) >>> 4
  let n := w &&& 0x000F
  let st := drwRowLoop s.memory s.i x y (updF s.v 15 0, s.gfx) n
  { s with opcode := w, v := st.1, gfx := st.2, draw_flag := true, pc := s.pc + 2 }

/-- Fx0A assignment loop (for i in 0..15): the source iterates key
indices 0 through 14 only, and a later pressed key overwrites an earlier
one (last match wins). -/
def waitKeyLoop (key v : Nat → Nat) (x : Nat) : Nat → Nat → Nat
  | 0 => v
  | k + 1 =>
    let p := waitKeyLoop key v x k
    if key k ≠ 0 then updF p x k else p

/-- Fx55 store loop (for i in 0..x, exclusive): memory[i + j] = v[j],
with the out-of-bounds write modelled as a panic (none). -/
def storeLoop (v : Nat → Nat) (i : Nat) (mem : Nat → Nat) :
    Nat → Option (Nat → Nat)
  | 0 => some mem
  | k + 1 =>
    match storeLoop v i mem k with
    | some m => if i + k < 4096 then some (updF m (i + k) (v k)) else none
    | none => none

/-- Fx65 load loop (for i in 0..x, exclusive): v[j] = memory[i + j],
with the out-of-bounds read modelled as a panic (none). -/
def loadRegsLoop (mem : Nat → Nat) (i : Nat) (v : Nat → Nat) :
    Nat → Option (Nat → Nat)
  | 0 => some v
  | k + 1 =>
    match loadRegsLoop mem i v k with
    | some p => if i + k < 4096 then some (updF p k (mem (i + k))) else none
    | none => none

/-- Copy loop of Chip8::load_program: memory[base + j] = data[j] for
each byte in order; the first write at an address ≥ 4096 is the Rust
index-out-of-bounds panic, modelled as none. -/
def loadLoop (mem : Nat → Nat) (base : Nat) : List Nat → Option (Nat → Nat)
  | [] => some mem
  | b :: rest =>
    if base < 4096 then loadLoop (updF mem base b) (base + 1) rest else none

/-- Chip8::load_program, with the file contents abstracted to the byte
list the fs read produced: copies the bytes into memory from 0x200 with
no length check. -/
def load_program (data : List Nat) (mem : Nat → Nat) : Option (Nat → Nat) :=
  loadLoop mem 512 data

/-- Decode-and-execute of Chip8::emulate_cycle for a fetched word w,
mirroring the Rust match on opcode & 0xF000 arm by arm (rnd is the byte
the thread_rng call of Cxkk produced).  none models a panic. -/
def execute (w rnd : Nat) (s : Chip8) : Option Chip8 :=
  let x := (w &&& 0x0F00) >>> 8
  let y := (w &&& 0x00F0) >>> 4
  let n := w &&& 0x000F
  let kk := w &&& 0x00FF
  let nnn := w &&& 0x0FFF
  if w &&& 0xF000 = 0x0000 then
    if w &&& 0x000F = 0x0000 then
      some { s with opcode := w, gfx := fun _ _ => 0, draw_flag := true, pc := s.pc + 2 }
    else if w &&& 0x000F = 0x000E then
      if s.sp = 0 then none
      else if s.sp - 1 < 16 then
        some { s with opcode := w, sp := s.sp - 1, pc := s.stack (s.sp - 1) }
      else none
    else some { s with opcode := w }
  else if w &&& 0xF000 = 0x1000 then
    some { s with opcode := w, pc := nnn }
  else if w &&& 0xF000 = 0x2000 then
    if s.sp < 16 then
      some { s with
               opcode := w
               stack := updF s.stack s.sp (s.pc + 2)
               sp := s.sp + 1
               pc := nnn }
    else none
  else if w &&& 0xF000 = 0x3000 then
    some { s with opcode := w, pc := s.pc + (if s.v x = kk then 4 else 2) }
  else if w &&& 0xF000 = 0x4000 then
    some { s with opcode := w, pc := s.pc + (if s.v x ≠ kk then 4 else 2) }
  else if w &&& 0xF000 = 0x5000 then
    some { s with opcode := w, pc := s.pc + (if s.v x = s.v y then 4 else 2) }
  else if w &&& 0xF000 = 0x6000 then
    some { s with opcode := w, v := updF s.v x kk, pc := s.pc + 2 }
  else if w &&& 0xF000 = 0x7000 then
    some { s with opcode := w, v := updF s.v x ((s.v x + kk) % 256), pc := s.pc + 2 }
  else if w &&& 0xF000 = 0x8000 then
    if w &&& 0x000F = 0x0000 then
      some { s with opcode := w, v := updF s.v x (s.v y), pc := s.pc + 2 }
    else if w &&& 0x000F = 0x0001 then
      some { s with opcode := w, v := updF s.v x (s.v x ||| s.v y), pc := s.pc + 2 }
    else if w &&& 0x000F = 0x0002 then
      some { s with opcode := w, v := updF s.v x (s.v x &&& s.v y), pc := s.pc + 2 }
    else if w &&& 0x000F = 0x0003 then
      some { s with opcode := w, v := updF s.v x (Nat.xor (s.v x) (s.v y)), pc := s.pc + 2 }
    else if w &&& 0x000F = 0x0004 then
      some { s with
               opcode := w
               v := updF (updF s.v x ((s.v x + s.v y) % 256)) 15
                      (if s.v x + s.v y > 255 then 1 else 0)
               pc := s.pc + 2 }
    else if w &&& 0x000F = 0x0005 then
      some { s with
               opcode := w
               v := updF (updF s.v 15 (if s.v x > s.v y then 1 else 0)) x
                      (wrapping_sub8 ((updF s.v 15 (if s.v x > s.v y then 1 else 0)) x)
                                     ((updF s.v 15 (if s.v x > s.v y then 1 else 0)) y))
               pc := s.pc + 2 }
    else if w &&& 0x000F = 0x0006 then
      some { s with
               opcode := w
               v := updF (updF s.v 15 (s.v x &&& 1)) x ((updF s.v 15 (s.v x &&& 1)) x >>> 1)
               pc := s.pc + 2 }
    else if w &&& 0x000F = 0x0007 then
      if (updF s.v 15 (if s.v y > s.v x then 1 else 0)) x ≤
         (updF s.v 15 (if s.v y > s.v x then 1 else 0)) y then
        some { s with
                 opcode := w
                 v := updF (updF s.v 15 (if s.v y > s.v x then 1 else 0)) x
                        ((updF s.v 15 (if s.v y > s.v x then 1 else 0)) y -
                         (updF s.v 15 (if s.v y > s.v x then 1 else 0)) x)
                 pc := s.pc + 2 }
      else none
    else if w &&& 0x000F = 0x000E then
      some { s with
               opcode := w
               v := updF (updF s.v 15 ((s.v x &&& 0x80) >>> 7)) x
                      (((updF s.v 15 ((s.v x &&& 0x80) >>> 7)) x * 2) % 256)
               pc := s.pc + 2 }
    else some { s with opcode := w }
  else if w &&& 0xF000 = 0x9000 then
    some { s with opcode := w, pc := s.pc + (if s.v x ≠ s.v y >>> 4 then 4 else 2) }
  else if w &&& 0xF000 = 0xA000 then
    some { s with opcode := w, i := nnn, pc := s.pc + 2 }
  else if w &&& 0xF000 = 0xB000 then
    some { s with opcode := w, pc := nnn + s.v 0 }
  else if w &&& 0xF000 = 0xC000 then
    some { s with opcode := w, v := updF s.v x ((rnd % 256) &&& kk), pc := s.pc + 2 }
  else if w &&& 0xF000 = 0xD000 then
    if n = 0 ∨ s.i + n ≤ 4096 then some (dxynExec w s) else none
  else if w &&& 0xF000 = 0xE000 then
    if w &&& 0x000F = 0x000E then
      if s.v x < 16 then
        some { s with opcode := w, pc := s.pc + (if s.key (s.v x) = 1 then 4 else 2) }
      else none
    else if w &&& 0x000F = 0x0001 then
      if s.v x < 16 then
        some { s with opcode := w, pc := s.pc + (if s.key (s.v x) ≠ 1 then 4 else 2) }
      else none
    else some { s with opcode := w }
  else if w &&& 0xF000 = 0xF000 then
    if kk = 0x07 then
      some { s with opcode := w, v := updF s.v x s.delay_timer, pc := s.pc + 2 }
    else if kk = 0x0A then
      if (List.range 16).any (fun j => s.key j != 0) then
        some { s with opcode := w, v := waitKeyLoop s.key s.v x 15, pc := s.pc + 2 }
      else some { s with opcode := w }
    else if kk = 0x15 then
      some { s with opcode := w, delay_timer := s.v x, pc := s.pc + 2 }
    else if kk = 0x18 then
      some { s with opcode := w, sound_timer := s.v x, pc := s.pc + 2 }
    else if kk = 0x1E then
      if s.i + s.v x ≤ 65535 then
        some { s with opcode := w, i := s.i + s.v x, pc := s.pc + 2 }
      else none
    else if kk = 0x29 then
      some { s with opcode := w, i := s.v x * 5, pc := s.pc + 2 }
    else if kk = 0x33 then
      if s.i + 2 < 4096 then
        some { s with
                 opcode := w
                 memory := updF (updF (updF s.memory s.i (s.v x / 100))
                                      (s.i + 1) ((s.v x / 10) % 10))
                                (s.i + 2) ((s.v x % 100) % 10)
                 pc := s.pc + 2 }
      else none
    else if kk = 0x55 then
      match storeLoop s.v s.i s.memory x with
      | some m => some { s with opcode := w, memory := m, pc := s.pc + 2 }
      | none => none
    else if kk = 0x65 then
      match loadRegsLoop s.memory s.i s.v x with
      | some v2 => some { s with opcode := w, v := v2, pc := s.pc + 2 }
      | none => none
    else some { s with opcode := w }
  else
    some { s with opcode := w, pc := s.pc + 2 }

/-- Chip8::emulate_cycle: fetch the word at pc (a fetch touching an
address ≥ 4096 is an index panic, modelled none) and execute it. -/
def emulate_cycle (rnd : Nat) (s : Chip8) : Option Chip8 :=
  if s.pc + 1 < 4096 then execute (get_opcode s) rnd s else none

/-- One RGBA quad of Chip8::draw for the frame cell with linear index k
(x = k % WIDTH, y = k / WIDTH, WIDTH = 64).  Only invoked by drawGo
under its k / 64 < 32 guard, which keeps the gfx read in bounds. -/
def quadOf (g : Nat → Nat → Nat) (k : Nat) : List Nat :=
  if g (k % 64) (k / 64) ≠ 0 then [0xff, 0xff, 0xff, 0xff] else [0x00, 0x00, 0x00, 0xff]

/-- Recursive form of the chunks_exact_mut(4) loop of Chip8::draw:
rewrites each complete 4-byte chunk and leaves a short tail untouched.
The Rust read gfx[x][y] with y = idx / 64 indexes a [u8; 32] row array,
so a chunk index of 2048 or more (y ≥ 32) is an index-out-of-bounds
panic, modelled as none like every other panic in this embedding. -/
def drawGo (g : Nat → Nat → Nat) (idx : Nat) : List Nat → Option (List Nat)
  | _ :: _ :: _ :: _ :: rest =>
    if idx / 64 < 32 then
      match drawGo g (idx + 1) rest with
      | some out => some (quadOf g idx ++ out)
      | none => none
    else none
  | l => some l

/-- Chip8::draw: translation of the gfx grid into the RGBA frame (the
receiver is an immutable borrow, so no machine state can change); none
models the gfx row panic reached by frames of 8196 bytes or more. -/
def draw (s : Chip8) (frame : List Nat) : Option (List Nat) :=
  drawGo s.gfx 0 frame

/-- Expected output of Chip8::draw on the chunks it completes: the same
quad-by-quad rewriting with no bounds concern.  This is a proof-side
description, equated with draw only below the 2048-quad panic bound. -/
def drawQuads (g : Nat → Nat → Nat) (idx : Nat) : List Nat → List Nat
  | _ :: _ :: _ :: _ :: rest => quadOf g idx ++ drawQuads g (idx + 1) rest
  | l => l

/-- Collision accumulator contributed by one sprite row: the lor over
bits 0..k-1 of (colorbit AND the screen cell the bit lands on). -/
def rowCollideOr (mb vx dy : Nat) (g : Nat → Nat → Nat) : Nat → Nat
  | 0 => 0
  | k + 1 => rowCollideOr mb vx dy g k ||| (colorbit mb k &&& g ((vx + k) % 64) dy)

/-- Collision accumulator over the first k sprite rows. -/
def drwCollideOr (mem : Nat → Nat) (i vx vy : Nat) (g : Nat → Nat → Nat) : Nat → Nat
  | 0 => 0
  | k + 1 => drwCollideOr mem i vx vy g k |||
             rowCollideOr (mem (i + k)) vx ((vy + k) % 32) g 8

/-- The XOR part of the Dxyn claim: s2 differs from s exactly by XORing
each sprite bit onto the cell it lands on (wrapped mod 64 and mod 32),
and registers other than VF keep their values. -/
def DrwXorSpec (s s2 : Chip8) (w : Nat) : Prop :=
  (∀ b, b < w &&& 0x000F → ∀ t, t < 8 →
     s2.gfx ((s.v ((w &&& 0x0F00) >>> 8) + t) % 64)
            ((s.v ((w &&& 0x00F0) >>> 4) + b) % 32) =
       Nat.xor (s.gfx ((s.v ((w &&& 0x0F00) >>> 8) + t) % 64)
                      ((s.v ((w &&& 0x00F0) >>> 4) + b) % 32))
               (colorbit (s.memory (s.i + b)) t))
  ∧ (∀ c d, (∀ b, b < w &&& 0x000F → ∀ t, t < 8 →
        ¬(c = (s.v ((w &&& 0x0F00) >>> 8) + t) % 64 ∧
          d = (s.v ((w &&& 0x00F0) >>> 4) + b) % 32)) →
        s2.gfx c d = s.gfx c d)
  ∧ (∀ j, j ≠ 15 → s2.v j = s.v j)

/-- The collision-flag part of the Dxyn claim: VF of s2 is 0 or 1, and
it is 1 exactly when some set sprite bit lands on a cell of s that was
already on (that on-pixel is then turned off by the XOR). -/
def DrwCollisionSpec (s s2 : Chip8) (w : Nat) : Prop :=
  s2.v 15 ≤ 1 ∧
  (s2.v 15 = 1 ↔ ∃ b, b < w &&& 0x000F ∧ ∃ t, t < 8 ∧
     colorbit (s.memory (s.i + b)) t = 1 ∧
     s.gfx ((s.v ((w &&& 0x0F00) >>> 8) + t) % 64)
           ((s.v ((w &&& 0x00F0) >>> 4) + b) % 32) = 1)

-- Concrete machine states used to evaluate the interpreter on the
-- inputs that decide the individual claims.

/-- State about to execute 9xy0 as 0x9120 with V1 = 1 and V2 = 0x10. -/
def c1state : Chip8 :=
  { initChip8 with
      memory := fun a => if a = 0x200 then 0x91 else if a = 0x201 then 0x20 else 0
      v := fun j => if j = 1 then 1 else if j = 2 then 0x10 else 0 }

/-- State about to execute RET (0x00EE) with an empty stack. -/
def c2state : Chip8 :=
  { initChip8 with
      memory := fun a => if a = 0x200 then 0x00 else if a = 0x201 then 0xEE else 0 }

/-- State about to execute CALL (0x2345) with a full stack (sp = 16). -/
def c2CallState : Chip8 :=
  { initChip8 with
      memory := fun a => if a = 0x200 then 0x23 else if a = 0x201 then 0x45 else 0
      sp := 16 }

/-- State about to execute Fx55 as 0xF055 (x = 0) with V0 = 7, I = 0x300. -/
def c3state : Chip8 :=
  { initChip8 with
      memory := fun a => if a = 0x200 then 0xF0 else if a = 0x201 then 0x55 else 0
      v := fun j => if j = 0 then 7 else 0
      i := 0x300 }

/-- State about to execute Fx0A as 0xF10A with keys 0x2 and 0x5 pressed. -/
def c4state : Chip8 :=
  { initChip8 with
      memory := fun a => if a = 0x200 then 0xF1 else if a = 0x201 then 0x0A else 0
      key := fun j => if j = 2 ∨ j = 5 then 1 else 0 }

/-- State about to execute SUB as 0x8125 with V1 = V2 = 5. -/
def c5state : Chip8 :=
  { initChip8 with
      memory := fun a => if a = 0x200 then 0x81 else if a = 0x201 then 0x25 else 0
      v := fun j => if j = 1 ∨ j = 2 then 5 else 0 }

/-- State about to execute the unrecognized word 0x0001. -/
def c6state : Chip8 :=
  { initChip8 with
      memory := fun a => if a = 0x200 then 0x00 else if a = 0x201 then 0x01 else 0 }

/-- State about to execute DRW as 0xDF11 (coordinate register x = 0xF)
twice in a row: the same word sits at 0x200 and 0x202, the two-pixel
sprite row 0xC0 is at I = 0x300, and the display is all-off. -/
def c9state : Chip8 :=
  { initChip8 with
      memory := fun a =>
        if a = 0x200 ∨ a = 0x202 then 0xDF else
        if a = 0x201 ∨ a = 0x203 then 0x11 else
        if a = 0x300 then 0xC0 else 0
      i := 0x300 }

/-- State about to execute the unrecognized word 0x801B (family 0x8,
sub-nibble 0xB, which no arm of the inner match handles). -/
def c6wstate : Chip8 :=
  { initChip8 with
      memory := fun a => if a = 0x200 then 0x80 else if a = 0x201 then 0x1B else 0 }

/-- State about to execute CALL 0x300 (word 0x2300) with an empty stack. -/
def c8CallState : Chip8 :=
  { initChip8 with
      memory := fun a => if a = 0x200 then 0x23 else if a = 0x201 then 0x00 else 0 }

/-- State about to execute RET at 0x300 with the frame pushed by the
CALL of c8CallState (the return address 0x202) on top of the stack. -/
def c8RetState : Chip8 :=
  { initChip8 with
      memory := fun a => if a = 0x300 then 0x00 else if a = 0x301 then 0xEE else 0
      pc := 0x300
      sp := 1
      stack := fun j => if j = 0 then 0x202 else 0 }

/-- State about to execute DRW as 0xD121 (x = 1, y = 2, n = 1), with the
same word again at 0x202 and the one-row sprite 0xC0 at I = 0x300. -/
def c9wstate : Chip8 :=
  { initChip8 with
      memory := fun a =>
        if a = 0x200 ∨ a = 0x202 then 0xD1 else
        if a = 0x201 ∨ a = 0x203 then 0x21 else
        if a = 0x300 then 0xC0 else 0
      i := 0x300 }

/-- State whose display has exactly the cell (1, 0) on. -/
def c10state : Chip8 :=
  { initChip8 with gfx := fun c d => if c = 1 ∧ d = 0 then 1 else 0 }

theorem loadLoop_none : ∀ (data : List Nat) (mem : Nat → Nat) (base : Nat),
    base ≤ 4096 → 4096 < base + data.length → loadLoop mem base data = none := by
  intro data
  induction data with
  | nil => intro mem base h1 h2; simp at h2; omega
  | cons b rest ih =>
    intro mem base h1 h2
    simp only [loadLoop, List.length_cons] at h2 ⊢
    by_cases hb : base < 4096
    · rw [if_pos hb]
      exact ih _ (base + 1) (by omega) (by omega)
    · rw [if_neg hb]

theorem emulate_cycle_eq (rnd : Nat) (s : Chip8) (hpc : s.pc + 1 < 4096) :
    emulate_cycle rnd s = execute (get_opcode s) rnd s := by
  unfold emulate_cycle; rw [if_pos hpc]

-- Supporting lemmas for the Dxyn sprite loops.

theorem mod64_inj {a b v : Nat} (ha : a < 64) (hb : b < 64)
    (h : (v + a) % 64 = (v + b) % 64) : a = b := by omega

theorem mod32_inj {a b v : Nat} (ha : a < 32) (hb : b < 32)
    (h : (v + a) % 32 = (v + b) % 32) : a = b := by omega

theorem drwBitLoop_v_ne (mb x dy : Nat) (st : (Nat → Nat) × (Nat → Nat → Nat))
    (j : Nat) (hj : j ≠ 15) :
    ∀ k, (drwBitLoop mb x dy st k).1 j = st.1 j := by
  intro k
  induction k with
  | zero => rfl
  | succ k ih =>
    simp only [drwBitLoop, updF]
    rw [if_neg hj]
    exact ih

theorem drwBitLoop_vx (mb x dy : Nat) (st : (Nat → Nat) × (Nat → Nat → Nat))
    (hx : x ≠ 15) (k : Nat) :
    (drwBitLoop mb x dy st k).1 x = st.1 x :=
  drwBitLoop_v_ne mb x dy st x hx k

theorem drwBitLoop_g_row (mb x dy : Nat) (st : (Nat → Nat) × (Nat → Nat → Nat))
    (d : Nat) (hd : d ≠ dy) :
    ∀ k c, (drwBitLoop mb x dy st k).2 c d = st.2 c d := by
  intro k
  induction k with
  | zero => intro c; rfl
  | succ k ih =>
    intro c
    simp only [drwBitLoop, updG]
    rw [if_neg (fun h => hd h.2)]
    exact ih c

theorem drwBitLoop_g_unhit (mb x dy : Nat) (st : (Nat → Nat) × (Nat → Nat → Nat))
    (hx : x ≠ 15) (c : Nat) :
    ∀ k, (∀ t, t < k → (st.1 x + t) % 64 ≠ c) →
    (drwBitLoop mb x dy st k).2 c dy = st.2 c dy := by
  intro k
  induction k with
  | zero => intro _; rfl
  | succ k ih =>
    intro hc
    simp only [drwBitLoop, updG]
    rw [drwBitLoop_vx mb x dy st hx k]
    rw [if_neg (fun h => hc k (by omega) h.1.symm)]
    exact ih (fun t ht => hc t (by omega))

theorem drwBitLoop_g_hit (mb x dy : Nat) (st : (Nat → Nat) × (Nat → Nat → Nat))
    (hx : x ≠ 15) (t : Nat) :
    ∀ k, t < k → k ≤ 8 →
    (drwBitLoop mb x dy st k).2 ((st.1 x + t) % 64) dy =
      Nat.xor (st.2 ((st.1 x + t) % 64) dy) (colorbit mb t) := by
  intro k
  induction k with
  | zero => omega
  | succ k ih =>
    intro ht hk
    simp only [drwBitLoop, updG]
    rw [drwBitLoop_vx mb x dy st hx k]
    by_cases he : t = k
    · subst he
      rw [if_pos ⟨rfl, trivial⟩]
      congr 1
      exact drwBitLoop_g_unhit mb x dy st hx _ _
        (fun t2 h2 heq => absurd (mod64_inj (by omega) (by omega) heq) (by omega))
    · have ht8 : t < 8 := by omega
      have hk8 : k < 8 := by omega
      have hne : ¬((st.1 x + t) % 64 = (st.1 x + k) % 64 ∧ True) :=
        fun h => he (mod64_inj (by omega) (by omega) h.1)
      rw [if_neg hne]
      exact ih (by omega) (by omega)

theorem drwBitLoop_vf (mb x dy : Nat) (st : (Nat → Nat) × (Nat → Nat → Nat))
    (hx : x ≠ 15) :
    ∀ k, k ≤ 8 → (drwBitLoop mb x dy st k).1 15 =
      st.1 15 ||| rowCollideOr mb (st.1 x) dy st.2 k := by
  intro k
  induction k with
  | zero => intro _; exact (Nat.or_zero _).symm
  | succ k ih =>
    intro hk
    simp only [drwBitLoop, updF, rowCollideOr]
    rw [if_pos trivial]
    rw [drwBitLoop_vx mb x dy st hx k, ih (by omega)]
    rw [drwBitLoop_g_unhit mb x dy st hx _ k
        (fun t2 h2 heq => absurd (mod64_inj (by omega) (by omega) heq) (by omega))]
    rw [Nat.lor_assoc]

theorem drwRowLoop_v_ne (mem : Nat → Nat) (i x y : Nat)
    (st : (Nat → Nat) × (Nat → Nat → Nat)) (j : Nat) (hj : j ≠ 15) :
    ∀ k, (drwRowLoop mem i x y st k).1 j = st.1 j := by
  intro k
  induction k with
  | zero => rfl
  | succ k ih =>
    simp only [drwRowLoop]
    rw [drwBitLoop_v_ne _ _ _ _ j hj 8]
    exact ih

theorem drwRowLoop_g_miss (mem : Nat → Nat) (i x y : Nat)
    (st : (Nat → Nat) × (Nat → Nat → Nat)) (hy : y ≠ 15) (c d : Nat) :
    ∀ k, (∀ b, b < k → (st.1 y + b) % 32 ≠ d) →
    (drwRowLoop mem i x y st k).2 c d = st.2 c d := by
  intro k
  induction k with
  | zero => intro _; rfl
  | succ k ih =>
    intro hb
    simp only [drwRowLoop]
    rw [drwRowLoop_v_ne mem i x y st y hy k]
    rw [drwBitLoop_g_row _ _ _ _ d (Ne.symm (hb k (by omega))) 8 c]
    exact ih (fun b h2 => hb b (by omega))

theorem drwRowLoop_g_colmiss (mem : Nat → Nat) (i x y : Nat)
    (st : (Nat → Nat) × (Nat → Nat → Nat)) (hx : x ≠ 15) (hy : y ≠ 15) (c : Nat)
    (hcol : ∀ t, t < 8 → (st.1 x + t) % 64 ≠ c) (d : Nat) :
    ∀ k, (drwRowLoop mem i x y st k).2 c d = st.2 c d := by
  intro k
  induction k with
  | zero => rfl
  | succ k ih =>
    simp only [drwRowLoop]
    rw [drwRowLoop_v_ne mem i x y st y hy k]
    by_cases hd : d = (st.1 y + k) % 32
    · subst hd
      rw [drwBitLoop_g_unhit _ _ _ _ hx c 8 ?hc]
      · exact ih
      · intro t ht
        rw [drwRowLoop_v_ne mem i x y st x hx k]
        exact hcol t ht
    · rw [drwBitLoop_g_row _ _ _ _ _ hd 8 c]
      exact ih

theorem drwRowLoop_g_hit (mem : Nat → Nat) (i x y : Nat)
    (st : (Nat → Nat) × (Nat → Nat → Nat)) (hx : x ≠ 15) (hy : y ≠ 15)
    (b t : Nat) (ht : t < 8) :
    ∀ k, b < k → k ≤ 32 →
    (drwRowLoop mem i x y st k).2 ((st.1 x + t) % 64) ((st.1 y + b) % 32) =
      Nat.xor (st.2 ((st.1 x + t) % 64) ((st.1 y + b) % 32))
              (colorbit (mem (i + b)) t) := by
  intro k
  induction k with
  | zero => omega
  | succ k ih =>
    intro hb hk
    simp only [drwRowLoop]
    rw [drwRowLoop_v_ne mem i x y st y hy k]
    by_cases he : b = k
    · subst he
      have hpx : (drwRowLoop mem i x y st b).1 x = st.1 x :=
        drwRowLoop_v_ne mem i x y st x hx b
      rw [show (st.1 x + t) % 64 = ((drwRowLoop mem i x y st b).1 x + t) % 64 by
            rw [hpx]]
      rw [drwBitLoop_g_hit _ _ _ _ hx t 8 ht (by omega)]
      rw [hpx]
      congr 1
      exact drwRowLoop_g_miss mem i x y st hy _ _ b
        (fun b2 h2 heq => absurd (mod32_inj (by omega) (by omega) heq) (by omega))
    · have hd : (st.1 y + b) % 32 ≠ (st.1 y + k) % 32 :=
        fun heq => he (mod32_inj (by omega) (by omega) heq)
      rw [drwBitLoop_g_row _ _ _ _ _ hd 8]
      exact ih (by omega) (by omega)

theorem rowCollideOr_congr (mb vx dy : Nat) (g g2 : Nat → Nat → Nat)
    (h : ∀ c, g c dy = g2 c dy) :
    ∀ k, rowCollideOr mb vx dy g k = rowCollideOr mb vx dy g2 k := by
  intro k
  induction k with
  | zero => rfl
  | succ k ih => simp only [rowCollideOr, ih, h]

theorem drwRowLoop_vf (mem : Nat → Nat) (i x y : Nat)
    (st : (Nat → Nat) × (Nat → Nat → Nat)) (hx : x ≠ 15) (hy : y ≠ 15) :
    ∀ k, k ≤ 32 → (drwRowLoop mem i x y st k).1 15 =
      st.1 15 ||| drwCollideOr mem i (st.1 x) (st.1 y) st.2 k := by
  intro k
  induction k with
  | zero => intro _; exact (Nat.or_zero _).symm
  | succ k ih =>
    intro hk
    simp only [drwRowLoop, drwCollideOr]
    rw [drwRowLoop_v_ne mem i x y st y hy k]
    rw [drwBitLoop_vf _ _ _ _ hx 8 (by omega)]
    rw [ih (by omega)]
    rw [drwRowLoop_v_ne mem i x y st x hx k]
    rw [rowCollideOr_congr _ _ _ _ st.2
          (fun c => drwRowLoop_g_miss mem i x y st hy c _ k
            (fun b2 h2 heq => absurd (mod32_inj (by omega) (by omega) heq) (by omega)))
          8]
    rw [Nat.lor_assoc]

theorem colorbit_le_one (mb t : Nat) : colorbit mb t ≤ 1 :=
  Nat.and_le_right

theorem lor_le_one {a b : Nat} (ha : a ≤ 1) (hb : b ≤ 1) : a ||| b ≤ 1 := by
  interval_cases a <;> interval_cases b <;> decide

theorem xor_le_one {a b : Nat} (ha : a ≤ 1) (hb : b ≤ 1) : Nat.xor a b ≤ 1 := by
  interval_cases a <;> interval_cases b <;> decide

theorem lor_eq_zero_iff_of_le {a b : Nat} (ha : a ≤ 1) (hb : b ≤ 1) :
    a ||| b = 0 ↔ a = 0 ∧ b = 0 := by
  interval_cases a <;> interval_cases b <;> decide

theorem and_eq_zero_iff_of_le {a b : Nat} (ha : a ≤ 1) (hb : b ≤ 1) :
    a &&& b = 0 ↔ ¬(a = 1 ∧ b = 1) := by
  interval_cases a <;> interval_cases b <;> decide

theorem collideTerm_le_one (mb t gv : Nat) : colorbit mb t &&& gv ≤ 1 :=
  le_trans Nat.and_le_left (colorbit_le_one mb t)

theorem rowCollideOr_le_one (mb vx dy : Nat) (g : Nat → Nat → Nat) :
    ∀ k, rowCollideOr mb vx dy g k ≤ 1 := by
  intro k
  induction k with
  | zero => exact Nat.zero_le 1
  | succ k ih => exact lor_le_one ih (collideTerm_le_one _ _ _)

theorem drwCollideOr_le_one (mem : Nat → Nat) (i vx vy : Nat) (g : Nat → Nat → Nat) :
    ∀ k, drwCollideOr mem i vx vy g k ≤ 1 := by
  intro k
  induction k with
  | zero => exact Nat.zero_le 1
  | succ k ih => exact lor_le_one ih (rowCollideOr_le_one _ _ _ _ 8)

theorem rowCollideOr_eq_zero_iff (mb vx dy : Nat) (g : Nat → Nat → Nat) :
    ∀ k, (rowCollideOr mb vx dy g k = 0 ↔
      ∀ t, t < k → colorbit mb t &&& g ((vx + t) % 64) dy = 0) := by
  intro k
  induction k with
  | zero =>
    constructor
    · intro _ t ht; omega
    · intro _; rfl
  | succ k ih =>
    rw [rowCollideOr,
        lor_eq_zero_iff_of_le (rowCollideOr_le_one mb vx dy g k) (collideTerm_le_one _ _ _),
        ih]
    constructor
    · rintro ⟨hall, hterm⟩ t ht
      by_cases he : t = k
      · subst he; exact hterm
      · exact hall t (by omega)
    · intro h
      exact ⟨fun t ht => h t (by omega), h k (by omega)⟩

theorem drwCollideOr_eq_zero_iff (mem : Nat → Nat) (i vx vy : Nat) (g : Nat → Nat → Nat) :
    ∀ k, (drwCollideOr mem i vx vy g k = 0 ↔
      ∀ b, b < k → ∀ t, t < 8 →
        colorbit (mem (i + b)) t &&& g ((vx + t) % 64) ((vy + b) % 32) = 0) := by
  intro k
  induction k with
  | zero =>
    constructor
    · intro _ b hb; omega
    · intro _; rfl
  | succ k ih =>
    rw [drwCollideOr,
        lor_eq_zero_iff_of_le (drwCollideOr_le_one mem i vx vy g k)
          (rowCollideOr_le_one _ _ _ _ 8),
        ih, rowCollideOr_eq_zero_iff]
    constructor
    · rintro ⟨hall, hrow⟩ b hb t ht
      by_cases he : b = k
      · subst he; exact hrow t ht
      · exact hall b (by omega) t ht
    · intro h
      exact ⟨fun b hb t ht => h b (by omega) t ht, fun t ht => h k (by omega) t ht⟩

theorem drwCollideOr_spec (mem : Nat → Nat) (i vx vy : Nat) (g : Nat → Nat → Nat)
    (hg : ∀ c, c < 64 → ∀ d, d < 32 → g c d ≤ 1) (k : Nat) :
    drwCollideOr mem i vx vy g k ≤ 1 ∧
    (drwCollideOr mem i vx vy g k = 1 ↔
      ∃ b, b < k ∧ ∃ t, t < 8 ∧ colorbit (mem (i + b)) t = 1 ∧
        g ((vx + t) % 64) ((vy + b) % 32) = 1) := by
  have hle := drwCollideOr_le_one mem i vx vy g k
  refine ⟨hle, ?_⟩
  have h1 : (drwCollideOr mem i vx vy g k = 1) ↔ ¬(drwCollideOr mem i vx vy g k = 0) := by
    omega
  rw [h1, drwCollideOr_eq_zero_iff]
  push_neg
  constructor
  · rintro ⟨b, hb, t, ht, hne⟩
    have hgle : g ((vx + t) % 64) ((vy + b) % 32) ≤ 1 :=
      hg _ (Nat.mod_lt _ (by omega)) _ (Nat.mod_lt _ (by omega))
    have h2 : ¬¬(colorbit (mem (i + b)) t = 1 ∧ g ((vx + t) % 64) ((vy + b) % 32) = 1) :=
      fun hn => hne ((and_eq_zero_iff_of_le (colorbit_le_one _ _) hgle).mpr hn)
    exact ⟨b, hb, t, ht, not_not.mp h2⟩
  · rintro ⟨b, hb, t, ht, hcb, hgv⟩
    refine ⟨b, hb, t, ht, fun h0 => ?_⟩
    have hgle : g ((vx + t) % 64) ((vy + b) % 32) ≤ 1 :=
      hg _ (Nat.mod_lt _ (by omega)) _ (Nat.mod_lt _ (by omega))
    exact (and_eq_zero_iff_of_le (colorbit_le_one _ _) hgle).mp h0 ⟨hcb, hgv⟩

theorem xor_zero_left (a : Nat) : Nat.xor 0 a = a := Nat.zero_xor a

theorem xor_self_eq (a : Nat) : Nat.xor a a = 0 := Nat.xor_self a

theorem updF_ne (f : Nat → Nat) (k v j : Nat) (h : j ≠ k) : updF f k v j = f j := by
  simp [updF, h]

theorem updF_self (f : Nat → Nat) (k v : Nat) : updF f k v k = v := by
  simp [updF]

/-- Pointwise description of the Dxyn body when neither coordinate
register is VF: hit cells are XORed with their sprite bit, all other
cells are untouched, registers other than VF keep their values, VF
becomes the collision accumulator, and pc/draw_flag/memory/index behave
as the instruction prescribes. -/
theorem dxynExec_spec (w : Nat) (s : Chip8)
    (hx : (w &&& 0x0F00) >>> 8 ≠ 15) (hy : (w &&& 0x00F0) >>> 4 ≠ 15) :
    (∀ b, b < w &&& 0x000F → ∀ t, t < 8 →
       (dxynExec w s).gfx ((s.v ((w &&& 0x0F00) >>> 8) + t) % 64)
                          ((s.v ((w &&& 0x00F0) >>> 4) + b) % 32) =
         Nat.xor (s.gfx ((s.v ((w &&& 0x0F00) >>> 8) + t) % 64)
                        ((s.v ((w &&& 0x00F0) >>> 4) + b) % 32))
                 (colorbit (s.memory (s.i + b)) t))
  ∧ (∀ c d, (∀ b, b < w &&& 0x000F → ∀ t, t < 8 →
        ¬(c = (s.v ((w &&& 0x0F00) >>> 8) + t) % 64 ∧
          d = (s.v ((w &&& 0x00F0) >>> 4) + b) % 32)) →
        (dxynExec w s).gfx c d = s.gfx c d)
  ∧ (∀ j, j ≠ 15 → (dxynExec w s).v j = s.v j)
  ∧ (dxynExec w s).v 15 =
      drwCollideOr s.memory s.i (s.v ((w &&& 0x0F00) >>> 8))
        (s.v ((w &&& 0x00F0) >>> 4)) s.gfx (w &&& 0x000F)
  ∧ (dxynExec w s).pc = s.pc + 2
  ∧ (dxynExec w s).draw_flag = true
  ∧ (dxynExec w s).memory = s.memory
  ∧ (dxynExec w s).i = s.i := by
  have hn32 : w &&& 0x000F ≤ 32 := le_trans Nat.and_le_right (by omega)
  have hvx : (updF s.v 15 0, s.gfx).1 ((w &&& 0x0F00) >>> 8) =
      s.v ((w &&& 0x0F00) >>> 8) := updF_ne _ _ _ _ hx
  have hvy : (updF s.v 15 0, s.gfx).1 ((w &&& 0x00F0) >>> 4) =
      s.v ((w &&& 0x00F0) >>> 4) := updF_ne _ _ _ _ hy
  refine ⟨?_, ?_, ?_, ?_, rfl, rfl, rfl, rfl⟩
  · intro b hb t ht
    show (drwRowLoop s.memory s.i _ _ (updF s.v 15 0, s.gfx) _).2 _ _ = _
    rw [← hvx, ← hvy]
    exact drwRowLoop_g_hit s.memory s.i _ _ (updF s.v 15 0, s.gfx) hx hy b t ht
      (w &&& 0x000F) hb hn32
  · intro c d hmiss
    show (drwRowLoop s.memory s.i _ _ (updF s.v 15 0, s.gfx) _).2 c d = _
    by_cases hrow : ∀ b, b < w &&& 0x000F →
        (s.v ((w &&& 0x00F0) >>> 4) + b) % 32 ≠ d
    · refine drwRowLoop_g_miss s.memory s.i _ _ (updF s.v 15 0, s.gfx) hy c d
        (w &&& 0x000F) ?_
      intro b hb
      rw [hvy]
      exact hrow b hb
    · push_neg at hrow
      obtain ⟨b, hb, heq⟩ := hrow
      refine drwRowLoop_g_colmiss s.memory s.i _ _ (updF s.v 15 0, s.gfx) hx hy c
        ?_ d (w &&& 0x000F)
      intro t ht hc
      rw [hvx] at hc
      exact hmiss b hb t ht ⟨hc.symm, heq.symm⟩
  · intro j hj
    show (drwRowLoop s.memory s.i _ _ (updF s.v 15 0, s.gfx) _).1 j = _
    rw [drwRowLoop_v_ne s.memory s.i _ _ (updF s.v 15 0, s.gfx) j hj]
    exact updF_ne _ _ _ _ hj
  · show (drwRowLoop s.memory s.i _ _ (updF s.v 15 0, s.gfx) _).1 15 = _
    rw [drwRowLoop_vf s.memory s.i _ _ (updF s.v 15 0, s.gfx) hx hy
          (w &&& 0x000F) hn32]
    rw [hvx, hvy]
    show updF s.v 15 0 15 ||| _ = _
    rw [updF_self, Nat.zero_or]

theorem emulate_cycle_drw (rnd : Nat) (s : Chip8) (hpc : s.pc + 1 < 4096)
    (hw : get_opcode s &&& 0xF000 = 0xD000)
    (hmem : get_opcode s &&& 0x000F = 0 ∨ s.i + (get_opcode s &&& 0x000F) ≤ 4096) :
    emulate_cycle rnd s = some (dxynExec (get_opcode s) s) := by
  rw [emulate_cycle_eq rnd s hpc]
  simp [execute, hw, hmem]

-- Supporting lemmas for Chip8::load_program.

theorem loadLoop_ok : ∀ (data : List Nat) (mem : Nat → Nat) (base : Nat),
    base + data.length ≤ 4096 →
    loadLoop mem base data = some (fun a =>
      if base ≤ a ∧ a < base + data.length then data.getD (a - base) 0 else mem a) := by
  intro data
  induction data with
  | nil =>
    intro mem base h
    simp only [loadLoop, List.length_nil, Nat.add_zero]
    congr 1
    funext a
    rw [if_neg (by omega)]
  | cons b rest ih =>
    intro mem base h
    simp only [loadLoop, List.length_cons] at h ⊢
    rw [if_pos (by omega : base < 4096), ih _ (base + 1) (by omega)]
    congr 1
    funext a
    by_cases h1 : a = base
    · subst h1
      rw [if_neg (by omega), if_pos (by omega)]
      simp [updF]
    · by_cases h2 : base + 1 ≤ a ∧ a < base + 1 + rest.length
      · rw [if_pos h2, if_pos (by omega)]
        rw [show a - base = (a - (base + 1)) + 1 by omega]
        simp
      · rw [if_neg h2, if_neg (by omega)]
        simp [updF, h1]

-- Supporting lemmas for Chip8::draw.

theorem quadOf_length (g : Nat → Nat → Nat) (k : Nat) : (quadOf g k).length = 4 := by
  unfold quadOf; split <;> rfl

theorem four_of_length {l : List Nat} (h : 3 < l.length) :
    ∃ a b c d rest, l = a :: b :: c :: d :: rest := by
  cases l with
  | nil => simp at h
  | cons a t =>
    cases t with
    | nil => simp at h
    | cons b t2 =>
      cases t2 with
      | nil => simp at h
      | cons c t3 =>
        cases t3 with
        | nil => simp at h
        | cons d rest => exact ⟨a, b, c, d, rest, rfl⟩

theorem drawQuads_length (g : Nat → Nat → Nat) (idx : Nat) (frame : List Nat) :
    (drawQuads g idx frame).length = frame.length := by
  induction idx, frame using drawQuads.induct g with
  | case1 idx a b c d rest ih =>
    simp only [drawQuads, List.length_append, List.length_cons, ih]
    unfold quadOf
    split <;> simp <;> omega
  | case2 idx l h =>
    rw [drawQuads.eq_def]
    split
    · exact ((h _ _ _ _ _ rfl).elim)
    · rfl

theorem drawQuads_quad (g : Nat → Nat → Nat) :
    ∀ (i idx : Nat) (frame : List Nat), 4 * i + 3 < frame.length →
    ((drawQuads g idx frame).drop (4 * i)).take 4 = quadOf g (idx + i) := by
  intro i
  induction i with
  | zero =>
    intro idx frame h
    obtain ⟨a, b, c, d, rest, rfl⟩ := four_of_length (show 3 < frame.length by omega)
    simp only [drawQuads, Nat.mul_zero, List.drop_zero, Nat.add_zero]
    rw [show (4 : Nat) = (quadOf g idx).length from (quadOf_length g idx).symm,
        List.take_left]
  | succ i ih =>
    intro idx frame h
    obtain ⟨a, b, c, d, rest, rfl⟩ := four_of_length (show 3 < frame.length by omega)
    simp only [drawQuads]
    rw [show 4 * (i + 1) = (quadOf g idx).length + 4 * i by rw [quadOf_length]; ring,
        List.drop_append, ih (idx + 1) rest (by simp at h; omega)]
    congr 1
    omega

theorem drawGo_ok (g : Nat → Nat → Nat) :
    ∀ (idx : Nat) (frame : List Nat), idx + frame.length / 4 ≤ 2048 →
    drawGo g idx frame = some (drawQuads g idx frame) := by
  intro idx frame
  induction idx, frame using drawQuads.induct g with
  | case1 idx a b c d rest ih =>
    intro h
    simp only [List.length_cons] at h
    simp only [drawGo, drawQuads]
    rw [if_pos (by omega : idx / 64 < 32), ih (by omega)]
  | case2 idx l h =>
    intro _
    rw [drawGo.eq_def, drawQuads.eq_def]
    split
    · exact ((h _ _ _ _ _ rfl).elim)
    · rfl

theorem drawGo_none (g : Nat → Nat → Nat) :
    ∀ (k idx : Nat) (frame : List Nat),
    4 * k + 3 < frame.length → 2048 ≤ idx + k → drawGo g idx frame = none := by
  intro k
  induction k with
  | zero =>
    intro idx frame hlen hidx
    obtain ⟨a, b, c, d, rest, rfl⟩ := four_of_length (show 3 < frame.length by omega)
    simp only [drawGo]
    rw [if_neg (by omega : ¬idx / 64 < 32)]
  | succ k ih =>
    intro idx frame hlen hidx
    obtain ⟨a, b, c, d, rest, rfl⟩ := four_of_length (show 3 < frame.length by omega)
    simp only [drawGo]
    by_cases hb : idx / 64 < 32
    · rw [if_pos hb, ih (idx + 1) rest (by simp at hlen; omega) (by omega)]
    · rw [if_neg hb]


-- Claim theorems.

/-- Claim C1 (code evaluation at the failing input): the spec says 9xy0
skips (pc + 4) exactly when Vx and Vy differ, but the source compares Vx
with Vy shifted right by four bits.  In c1state the word is 0x9120 with
V1 = 1 and V2 = 0x10: the registers differ, so the claim demands
pc = 0x204, yet the code advances only to 0x202 because V2 >> 4 = 1 = V1. -/
theorem c1_sne_vy_shift_eval :
    Option.map Chip8.pc (emulate_cycle 0 c1state) = some 0x202 := by decide

/-- Claim C2 (counterexample): the claim says RET (00EE) on an empty
stack returns a StackUnderflow fault rather than panicking; in the
source the usize stack pointer is decremented with no check, which is a
panic, modelled here as the step returning none instead of a fault. -/
theorem c2_counterexample : emulate_cycle 0 c2state = none := by rfl

/-- Claim C2 (amended): RET with an empty stack and CALL with a full
stack each panic (the step returns none); there is no fault channel.
When the guards hold, CALL pushes the return address pc + 2 and moves
the stack pointer to sp + 1, and RET pops to the stored address with
stack pointer sp - 1, so a successful step keeps sp within 0..16. -/
theorem c2_amended (rnd : Nat) (s : Chip8) (hpc : s.pc + 1 < 4096) :
    (get_opcode s &&& 0xF000 = 0x0000 → get_opcode s &&& 0x000F = 0x000E → s.sp = 0 →
       emulate_cycle rnd s = none)
  ∧ (get_opcode s &&& 0xF000 = 0x2000 → 16 ≤ s.sp → emulate_cycle rnd s = none)
  ∧ (get_opcode s &&& 0xF000 = 0x2000 → s.sp < 16 →
       emulate_cycle rnd s = some { s with
         opcode := get_opcode s
         stack := updF s.stack s.sp (s.pc + 2)
         sp := s.sp + 1
         pc := get_opcode s &&& 0x0FFF })
  ∧ (get_opcode s &&& 0xF000 = 0x0000 → get_opcode s &&& 0x000F = 0x000E →
       1 ≤ s.sp → s.sp ≤ 16 →
       emulate_cycle rnd s = some { s with
         opcode := get_opcode s
         sp := s.sp - 1
         pc := s.stack (s.sp - 1) }) := by
  refine ⟨?_, ?_, ?_, ?_⟩
  · intro h1 h2 h3
    rw [emulate_cycle_eq rnd s hpc]
    simp [execute, h1, h2, h3]
  · intro h1 h2
    rw [emulate_cycle_eq rnd s hpc]
    simp [execute, h1, Nat.not_lt.mpr h2]
  · intro h1 h2
    rw [emulate_cycle_eq rnd s hpc]
    simp [execute, h1, h2]
  · intro h1 h2 h3 h4
    rw [emulate_cycle_eq rnd s hpc]
    simp [execute, h1, h2, show s.sp ≠ 0 by omega, show s.sp - 1 < 16 by omega]

/-- Claim C2 (witness): the amended claim applied to the concrete state
c2CallState, a CALL with a full stack, which panics (none). -/
theorem c2_witness : emulate_cycle 0 c2CallState = none :=
  (c2_amended 0 c2CallState (by decide)).2.1 (by decide) (by decide)

/-- Claim C3 (code evaluation at the failing input): the spec says Fx55
copies V0 through Vx inclusive, but the source loop runs over 0..x
exclusive.  In c3state the word is 0xF055 with x = 0, V0 = 7 and
I = 0x300: the claim demands memory[0x300] = 7 after the step, yet the
code copies nothing (memory[0x300] stays 0) while pc still advances. -/
theorem c3_store_excludes_vx_eval :
    Option.map (fun st => st.memory 0x300) (emulate_cycle 0 c3state) = some 0
    ∧ Option.map Chip8.pc (emulate_cycle 0 c3state) = some 0x202 := by decide

/-- Claim C4 (code evaluation at the failing input): the spec says Fx0A
stores the lowest-indexed pressed key, but the source loop lets a later
key overwrite an earlier one (and scans indices 0..14 only).  In c4state
the word is 0xF10A with keys 2 and 5 pressed: the claim demands V1 = 2,
yet the code stores 5. -/
theorem c4_waitkey_lastmatch_eval :
    Option.map (fun st => st.v 1) (emulate_cycle 0 c4state) = some 5 := by decide

/-- Claim C5 (code evaluation at the failing input): the spec says SUB
(8xy5) sets VF to 1 when Vx is greater than or equal to Vy, so VF = 1 at
equality, but the source tests the strict inequality Vx > Vy.  In
c5state the word is 0x8125 with V1 = V2 = 5: the claim demands VF = 1,
yet the code leaves VF = 0 (and V1 = 0). -/
theorem c5_sub_flag_equality_eval :
    Option.map (fun st => st.v 15) (emulate_cycle 0 c5state) = some 0
    ∧ Option.map (fun st => st.v 1) (emulate_cycle 0 c5state) = some 0 := by decide

/-- Claim C6 (counterexample): the claim says an unrecognized word still
advances pc by 2; the word 0x0001 matches no opcode form, yet the step
leaves pc at 0x200 (and returns no fault), so the same word would be
fetched forever. -/
theorem c6_counterexample :
    Option.map Chip8.pc (emulate_cycle 0 c6state) = some 0x200 := by decide

/-- Claim C6 (amended): a word with an unmatched sub-discriminator in
the 0x0, 0x8, 0xE or 0xF family only prints a diagnostic: the step
succeeds, latches the word into the opcode field and changes nothing
else — in particular pc does not advance and no fault is reported.  (The
top-level fallback that would advance pc by 2 is unreachable, since every
value of the high nibble has an arm.) -/
theorem c6_amended (rnd : Nat) (s : Chip8) (hpc : s.pc + 1 < 4096)
    (hw : (get_opcode s &&& 0xF000 = 0x0000 ∧ get_opcode s &&& 0x000F ≠ 0x0000 ∧
           get_opcode s &&& 0x000F ≠ 0x000E)
        ∨ (get_opcode s &&& 0xF000 = 0x8000 ∧ get_opcode s &&& 0x000F ≠ 0x0000 ∧
           get_opcode s &&& 0x000F ≠ 0x0001 ∧ get_opcode s &&& 0x000F ≠ 0x0002 ∧
           get_opcode s &&& 0x000F ≠ 0x0003 ∧ get_opcode s &&& 0x000F ≠ 0x0004 ∧
           get_opcode s &&& 0x000F ≠ 0x0005 ∧ get_opcode s &&& 0x000F ≠ 0x0006 ∧
           get_opcode s &&& 0x000F ≠ 0x0007 ∧ get_opcode s &&& 0x000F ≠ 0x000E)
        ∨ (get_opcode s &&& 0xF000 = 0xE000 ∧ get_opcode s &&& 0x000F ≠ 0x000E ∧
           get_opcode s &&& 0x000F ≠ 0x0001)
        ∨ (get_opcode s &&& 0xF000 = 0xF000 ∧ get_opcode s &&& 0x00FF ≠ 0x0007 ∧
           get_opcode s &&& 0x00FF ≠ 0x000A ∧ get_opcode s &&& 0x00FF ≠ 0x0015 ∧
           get_opcode s &&& 0x00FF ≠ 0x0018 ∧ get_opcode s &&& 0x00FF ≠ 0x001E ∧
           get_opcode s &&& 0x00FF ≠ 0x0029 ∧ get_opcode s &&& 0x00FF ≠ 0x0033 ∧
           get_opcode s &&& 0x00FF ≠ 0x0055 ∧ get_opcode s &&& 0x00FF ≠ 0x0065)) :
    emulate_cycle rnd s = some { s with opcode := get_opcode s } := by
  rw [emulate_cycle_eq rnd s hpc]
  rcases hw with ⟨h1, h2, h3⟩ | ⟨h1, h2, h3, h4, h5, h6, h7, h8, h9, h10⟩ |
    ⟨h1, h2, h3⟩ | ⟨h1, h2, h3, h4, h5, h6, h7, h8, h9, h10⟩
  · simp [execute, h1, h2, h3]
  · simp [execute, h1, h2, h3, h4, h5, h6, h7, h8, h9, h10]
  · simp [execute, h1, h2, h3]
  · simp [execute, h1, h2, h3, h4, h5, h6, h7, h8, h9, h10]

/-- Claim C6 (witness): the amended claim applied to the concrete state
c6wstate holding the unmatched family-8 word 0x801B. -/
theorem c6_witness :
    emulate_cycle 0 c6wstate = some { c6wstate with opcode := 0x801B } :=
  c6_amended 0 c6wstate (by decide) (Or.inr (Or.inl (by decide)))

/-- Claim C7 (counterexample): the claim says a program longer than 3584
bytes fails with ProgramTooLarge, leaving memory unchanged and without
panicking; the source has no length check, so the copy loop runs past
the end of the 4096-byte array and panics (none), after having already
overwritten the whole region from 0x200 up. -/
theorem c7_counterexample :
    load_program (List.replicate 3585 0) (fun _ => 0) = none := by
  apply loadLoop_none
  · omega
  · rw [List.length_replicate]; omega

/-- Claim C7 (amended): load_program copies the bytes into memory
starting at 0x200 and succeeds when the program has at most 3584 bytes
(addresses outside the written window keep their old contents); a longer
program makes the copy loop panic with an out-of-bounds write (none)
instead of returning a ProgramTooLarge error. -/
theorem c7_amended (data : List Nat) (mem : Nat → Nat) :
    (data.length ≤ 3584 →
      load_program data mem = some (fun a =>
        if 512 ≤ a ∧ a < 512 + data.length then data.getD (a - 512) 0 else mem a))
    ∧ (3584 < data.length → load_program data mem = none) := by
  constructor
  · intro h
    exact loadLoop_ok data mem 512 (by omega)
  · intro h
    exact loadLoop_none data mem 512 (by omega) (by omega)

/-- Claim C7 (witness): the amended claim applied to the one-byte
program [7], which lands at address 0x200. -/
theorem c7_witness :
    load_program [7] (fun _ => 0) = some (fun a =>
      if 512 ≤ a ∧ a < 512 + ([7] : List Nat).length then ([7] : List Nat).getD (a - 512) 0
      else 0) :=
  (c7_amended [7] (fun _ => 0)).1 (by decide)

/-- Claim C8: CALL followed by RET round-trips.  Executing CALL (2nnn)
from program counter p with a non-full stack pushes p + 2 and jumps to
nnn; executing RET (00EE) later, in any state whose stack pointer is one
above the original and whose top frame still holds p + 2, restores the
stack pointer and sets the program counter to p + 2, the instruction
after the CALL. -/
theorem c8_call_ret_roundtrip (rnd1 rnd2 : Nat) (s t : Chip8)
    (hpc : s.pc + 1 < 4096) (hsp : s.sp < 16)
    (hcall : get_opcode s &&& 0xF000 = 0x2000)
    (htpc : t.pc + 1 < 4096)
    (hret0 : get_opcode t &&& 0xF000 = 0x0000)
    (hretE : get_opcode t &&& 0x000F = 0x000E)
    (htsp : t.sp = s.sp + 1)
    (htop : t.stack s.sp = s.pc + 2) :
    emulate_cycle rnd1 s = some { s with
        opcode := get_opcode s
        stack := updF s.stack s.sp (s.pc + 2)
        sp := s.sp + 1
        pc := get_opcode s &&& 0x0FFF }
    ∧ emulate_cycle rnd2 t = some { t with
        opcode := get_opcode t
        sp := s.sp
        pc := s.pc + 2 } := by
  constructor
  · rw [emulate_cycle_eq rnd1 s hpc]
    simp [execute, hcall, hsp]
  · rw [emulate_cycle_eq rnd2 t htpc]
    simp [execute, hret0, hretE, htsp, htop, hsp]

/-- Claim C8 (witness): the round trip at the concrete pair of states
c8CallState (CALL 0x300 from 0x200) and c8RetState (RET at 0x300 with
the pushed frame 0x202 on top). -/
theorem c8_witness :
    emulate_cycle 0 c8CallState = some { c8CallState with
        opcode := get_opcode c8CallState
        stack := updF c8CallState.stack c8CallState.sp (c8CallState.pc + 2)
        sp := c8CallState.sp + 1
        pc := get_opcode c8CallState &&& 0x0FFF }
    ∧ emulate_cycle 0 c8RetState = some { c8RetState with
        opcode := get_opcode c8RetState
        sp := c8CallState.sp
        pc := c8CallState.pc + 2 } :=
  c8_call_ret_roundtrip 0 0 c8CallState c8RetState (by decide) (by decide) (by decide)
    (by decide) (by decide) (by decide) (by decide) (by decide)

/-- Claim C9 (counterexample): the claim says drawing the same Dxyn
twice on an all-off display restores all-off; in c9state the word is
0xDF11, whose coordinate register x is VF, the register the draw itself
overwrites, so during the second draw the collision flag shifts the
sprite one column right and the cell (1, 0) is left on. -/
theorem c9_counterexample :
    Option.map (fun st => st.gfx 1 0)
      (Option.bind (emulate_cycle 0 c9state) (emulate_cycle 0)) = some 1 := by decide

/-- Claim C9 (amended): when the coordinate registers are not VF, the
sprite bytes lie inside memory, and the display holds only 0/1 pixels,
Dxyn XORs every sprite bit onto the display at positions wrapped mod 64
and mod 32 (cells the sprite does not cover keep their values, registers
other than VF keep theirs), VF tells exactly whether some on-pixel was
turned off, redraw is marked and pc advances by 2; and executing the
same word twice in succession from an all-off display (with at least one
set sprite bit) returns the display to all-off with VF = 1. -/
theorem c9_amended (rnd rnd2 : Nat) (s : Chip8)
    (hpc : s.pc + 3 < 4096)
    (hw : get_opcode s &&& 0xF000 = 0xD000)
    (hx : (get_opcode s &&& 0x0F00) >>> 8 ≠ 15)
    (hy : (get_opcode s &&& 0x00F0) >>> 4 ≠ 15)
    (hmem : get_opcode s &&& 0x000F = 0 ∨ s.i + (get_opcode s &&& 0x000F) ≤ 4096)
    (hgfx : ∀ c, c < 64 → ∀ d, d < 32 → s.gfx c d ≤ 1) :
    emulate_cycle rnd s = some (dxynExec (get_opcode s) s)
  ∧ DrwXorSpec s (dxynExec (get_opcode s) s) (get_opcode s)
  ∧ DrwCollisionSpec s (dxynExec (get_opcode s) s) (get_opcode s)
  ∧ (dxynExec (get_opcode s) s).draw_flag = true
  ∧ (dxynExec (get_opcode s) s).pc = s.pc + 2
  ∧ (s.memory (s.pc + 2) = s.memory s.pc →
     s.memory (s.pc + 3) = s.memory (s.pc + 1) →
     (∀ c, c < 64 → ∀ d, d < 32 → s.gfx c d = 0) →
     (∃ b, b < get_opcode s &&& 0x000F ∧ ∃ t, t < 8 ∧
        colorbit (s.memory (s.i + b)) t = 1) →
     emulate_cycle rnd2 (dxynExec (get_opcode s) s) =
        some (dxynExec (get_opcode s) (dxynExec (get_opcode s) s))
     ∧ (∀ c, c < 64 → ∀ d, d < 32 →
          (dxynExec (get_opcode s) (dxynExec (get_opcode s) s)).gfx c d = 0)
     ∧ (dxynExec (get_opcode s) (dxynExec (get_opcode s) s)).v 15 = 1) := by
  obtain ⟨shit, smiss, svne, svf, spc1, sflag, smem1, si1⟩ :=
    dxynExec_spec (get_opcode s) s hx hy
  have hA : emulate_cycle rnd s = some (dxynExec (get_opcode s) s) :=
    emulate_cycle_drw rnd s (by omega) hw hmem
  have hColl : DrwCollisionSpec s (dxynExec (get_opcode s) s) (get_opcode s) := by
    constructor
    · rw [svf]; exact drwCollideOr_le_one _ _ _ _ _ _
    · rw [svf]; exact (drwCollideOr_spec s.memory s.i _ _ s.gfx hgfx _).2
  refine ⟨hA, ⟨shit, smiss, svne⟩, hColl, sflag, spc1, ?_⟩
  intro hm2 hm3 hall hspr
  have e1 : (dxynExec (get_opcode s) s).v ((get_opcode s &&& 0x0F00) >>> 8) =
      s.v ((get_opcode s &&& 0x0F00) >>> 8) := svne _ hx
  have e2 : (dxynExec (get_opcode s) s).v ((get_opcode s &&& 0x00F0) >>> 4) =
      s.v ((get_opcode s &&& 0x00F0) >>> 4) := svne _ hy
  have hw2 : get_opcode (dxynExec (get_opcode s) s) = get_opcode s := by
    have hdef : get_opcode (dxynExec (get_opcode s) s) =
        (dxynExec (get_opcode s) s).memory ((dxynExec (get_opcode s) s).pc) <<< 8 |||
        (dxynExec (get_opcode s) s).memory ((dxynExec (get_opcode s) s).pc + 1) := rfl
    rw [hdef, smem1, spc1, show s.pc + 2 + 1 = s.pc + 3 by omega, hm2, hm3]
    rfl
  have hgfx1 : ∀ c, c < 64 → ∀ d, d < 32 → (dxynExec (get_opcode s) s).gfx c d ≤ 1 := by
    intro c hc d hd
    by_cases hhit : ∃ b, b < get_opcode s &&& 0x000F ∧ ∃ t, t < 8 ∧
        c = (s.v ((get_opcode s &&& 0x0F00) >>> 8) + t) % 64 ∧
        d = (s.v ((get_opcode s &&& 0x00F0) >>> 4) + b) % 32
    · obtain ⟨b, hb, t, ht, hceq, hdeq⟩ := hhit
      subst hceq; subst hdeq
      rw [shit b hb t ht]
      exact xor_le_one (hgfx _ (Nat.mod_lt _ (by omega)) _ (Nat.mod_lt _ (by omega)))
        (colorbit_le_one _ _)
    · push_neg at hhit
      rw [smiss c d (fun b hb t ht h => hhit b hb t ht h.1 h.2)]
      exact hgfx c hc d hd
  have hstep2 : emulate_cycle rnd2 (dxynExec (get_opcode s) s) =
      some (dxynExec (get_opcode s) (dxynExec (get_opcode s) s)) := by
    have := emulate_cycle_drw rnd2 (dxynExec (get_opcode s) s)
      (by rw [spc1]; omega) (by rw [hw2]; exact hw)
      (by rw [hw2, si1]; exact hmem)
    rwa [hw2] at this
  obtain ⟨shit2, smiss2, svne2, svf2, _, _, _, _⟩ :=
    dxynExec_spec (get_opcode s) (dxynExec (get_opcode s) s) hx hy
  refine ⟨hstep2, ?_, ?_⟩
  · intro c hc d hd
    by_cases hhit : ∃ b, b < get_opcode s &&& 0x000F ∧ ∃ t, t < 8 ∧
        c = (s.v ((get_opcode s &&& 0x0F00) >>> 8) + t) % 64 ∧
        d = (s.v ((get_opcode s &&& 0x00F0) >>> 4) + b) % 32
    · obtain ⟨b, hb, t, ht, hceq, hdeq⟩ := hhit
      subst hceq; subst hdeq
      have h2 := shit2 b hb t ht
      rw [e1, e2, smem1, si1] at h2
      rw [h2, shit b hb t ht,
          hall _ (Nat.mod_lt _ (by omega)) _ (Nat.mod_lt _ (by omega)),
          xor_zero_left, xor_self_eq]
    · push_neg at hhit
      rw [smiss2 c d ?_, smiss c d (fun b hb t ht h => hhit b hb t ht h.1 h.2)]
      · exact hall c hc d hd
      · intro b hb t ht
        rw [e1, e2]
        intro h
        exact hhit b hb t ht h.1 h.2
  · obtain ⟨b, hb, t, ht, hcb⟩ := hspr
    have hg1eq : (dxynExec (get_opcode s) s).gfx
        ((s.v ((get_opcode s &&& 0x0F00) >>> 8) + t) % 64)
        ((s.v ((get_opcode s &&& 0x00F0) >>> 4) + b) % 32) = 1 := by
      rw [shit b hb t ht,
          hall _ (Nat.mod_lt _ (by omega)) _ (Nat.mod_lt _ (by omega)),
          hcb]
      decide
    have hsvf2 : (dxynExec (get_opcode s) (dxynExec (get_opcode s) s)).v 15 =
        drwCollideOr s.memory s.i
          (s.v ((get_opcode s &&& 0x0F00) >>> 8))
          (s.v ((get_opcode s &&& 0x00F0) >>> 4))
          (dxynExec (get_opcode s) s).gfx (get_opcode s &&& 0x000F) := by
      rw [svf2, e1, e2, smem1, si1]
    rw [hsvf2]
    exact (drwCollideOr_spec s.memory s.i _ _ _ hgfx1 _).2.mpr
      ⟨b, hb, t, ht, hcb, hg1eq⟩

/-- Claim C9 (witness): the amended claim applied to the concrete state
c9wstate (word 0xD121, x = 1, y = 2, one sprite row 0xC0 at 0x300). -/
theorem c9_witness :
    emulate_cycle 0 c9wstate = some (dxynExec (get_opcode c9wstate) c9wstate)
  ∧ DrwXorSpec c9wstate (dxynExec (get_opcode c9wstate) c9wstate) (get_opcode c9wstate)
  ∧ DrwCollisionSpec c9wstate (dxynExec (get_opcode c9wstate) c9wstate)
      (get_opcode c9wstate)
  ∧ (dxynExec (get_opcode c9wstate) c9wstate).draw_flag = true
  ∧ (dxynExec (get_opcode c9wstate) c9wstate).pc = c9wstate.pc + 2
  ∧ (c9wstate.memory (c9wstate.pc + 2) = c9wstate.memory c9wstate.pc →
     c9wstate.memory (c9wstate.pc + 3) = c9wstate.memory (c9wstate.pc + 1) →
     (∀ c, c < 64 → ∀ d, d < 32 → c9wstate.gfx c d = 0) →
     (∃ b, b < get_opcode c9wstate &&& 0x000F ∧ ∃ t, t < 8 ∧
        colorbit (c9wstate.memory (c9wstate.i + b)) t = 1) →
     emulate_cycle 0 (dxynExec (get_opcode c9wstate) c9wstate) =
        some (dxynExec (get_opcode c9wstate) (dxynExec (get_opcode c9wstate) c9wstate))
     ∧ (∀ c, c < 64 → ∀ d, d < 32 →
          (dxynExec (get_opcode c9wstate)
            (dxynExec (get_opcode c9wstate) c9wstate)).gfx c d = 0)
     ∧ (dxynExec (get_opcode c9wstate)
          (dxynExec (get_opcode c9wstate) c9wstate)).v 15 = 1) :=
  c9_amended 0 0 c9wstate (by decide) (by decide) (by decide) (by decide)
    (by decide) (by decide)

/-- Claim C10 (counterexample): the claim describes defined output
quads for every frame quad index, but a frame of 8196 bytes reaches
quad index 2048, where y = 2048 / 64 = 32 and the Rust read gfx[x][32]
of a [u8; 32] row panics (modelled none), so there is no output at all. -/
theorem c10_counterexample :
    draw initChip8 (List.replicate 8196 0) = none := by
  apply drawGo_none initChip8.gfx 2048 0
  · rw [List.length_replicate]; omega
  · omega

/-- Claim C10 (amended): Chip8::draw changes no machine state (its
receiver is an immutable borrow, so in particular draw_flag survives).
For a frame below the panic bound (at most 8195 bytes, so at most 2048
complete quads) it produces the expected frame: length preserved, and
for every complete quad index i the four bytes at offset 4 * i are all
0xFF when gfx[i mod 64][i div 64] is nonzero and [0, 0, 0, 0xFF]
otherwise, so rows scan x fastest and alpha is always 0xFF.  A frame of
8196 bytes or more instead panics with an index out of bounds on gfx
row 32 (modelled none) and produces no frame. -/
theorem c10_draw_quads (s : Chip8) (frame : List Nat) :
    (frame.length ≤ 8195 →
      draw s frame = some (drawQuads s.gfx 0 frame)
      ∧ (drawQuads s.gfx 0 frame).length = frame.length
      ∧ ∀ i, 4 * i + 3 < frame.length →
          ((drawQuads s.gfx 0 frame).drop (4 * i)).take 4 =
            (if s.gfx (i % 64) (i / 64) ≠ 0 then [0xff, 0xff, 0xff, 0xff]
             else [0x00, 0x00, 0x00, 0xff]))
    ∧ (8196 ≤ frame.length → draw s frame = none) := by
  constructor
  · intro hlen
    refine ⟨drawGo_ok s.gfx 0 frame (by omega), drawQuads_length s.gfx 0 frame, ?_⟩
    intro i h
    have hq := drawQuads_quad s.gfx i 0 frame h
    rw [show 0 + i = i by omega] at hq
    exact hq
  · intro hlen
    apply drawGo_none s.gfx 2048 0
    · omega
    · omega

/-- Claim C10 (witness): the amended claim applied to the concrete
state c10state (only cell (1, 0) on) and an 8-byte frame. -/
theorem c10_witness :
    (([0, 0, 0, 0, 0, 0, 0, 0] : List Nat).length ≤ 8195 →
      draw c10state [0, 0, 0, 0, 0, 0, 0, 0] =
          some (drawQuads c10state.gfx 0 [0, 0, 0, 0, 0, 0, 0, 0])
      ∧ (drawQuads c10state.gfx 0 [0, 0, 0, 0, 0, 0, 0, 0]).length =
          ([0, 0, 0, 0, 0, 0, 0, 0] : List Nat).length
      ∧ ∀ i, 4 * i + 3 < ([0, 0, 0, 0, 0, 0, 0, 0] : List Nat).length →
          ((drawQuads c10state.gfx 0 [0, 0, 0, 0, 0, 0, 0, 0]).drop (4 * i)).take 4 =
            (if c10state.gfx (i % 64) (i / 64) ≠ 0 then [0xff, 0xff, 0xff, 0xff]
             else [0x00, 0x00, 0x00, 0xff]))
    ∧ (8196 ≤ ([0, 0, 0, 0, 0, 0, 0, 0] : List Nat).length →
        draw c10state [0, 0, 0, 0, 0, 0, 0, 0] = none) :=
  c10_draw_quads c10state [0, 0, 0, 0, 0, 0, 0, 0]
